import Mathlib

/-!
Verification of the repository state machine and orchestrator of kubeflow-ci-cli.

Shallow embedding of the Python source under src/kfcicli into Lean: pure data
(DiffSummary, pull-request rows) becomes plain structures and functions; the
stateful git client (kfcicli/repository.py, class Client) becomes explicit
state passing over a GitState record, with Python exceptions modelled by
Except; the orchestration loops of kfcicli/main.py become recursions over
lists that thread an operation trace.
-/

/-- Python exception kinds raised by the code paths modelled here.
GitCommandError comes from GitPython, AssertionError from a bare assert,
the others are the exception classes of kfcicli (repository.py, metadata.py). -/
inductive PyErr
  | gitCommandError
  | repositoryClientError
  | assertionError
  | inputError
  | githubException
  deriving DecidableEq

/-! ## ChangeSummary: DiffSummary (kfcicli/repository.py, lines 130-202) -/

/-- Embedding of DiffSummary (kfcicli/repository.py): an immutable record of
whether the repository is dirty plus the frozensets of added, removed and
modified paths. Paths are modelled as strings, frozenset as Finset String. -/
structure DiffSummary where
  is_dirty : Bool
  new : Finset String
  removed : Finset String
  modified : Finset String

/-- Embedding of DiffSummary.__add__ (kfcicli/repository.py, lines 171-191):
dirty flags are combined with or, the three path sets with set union.  The
dynamic isinstance check of the Python code is subsumed by typing. -/
def DiffSummary.add (a b : DiffSummary) : DiffSummary :=
  { is_dirty := a.is_dirty || b.is_dirty
    new := a.new ∪ b.new
    removed := a.removed ∪ b.removed
    modified := a.modified ∪ b.modified }

/-- The all-empty, not-dirty summary (the identity element claimed by the spec). -/
def DiffSummary.empty : DiffSummary :=
  { is_dirty := false, new := ∅, removed := ∅, modified := ∅ }

/-! ## Pull request lookup: Client.get_pull_request (repository.py, lines 534-558) -/

/-- A GitHub pull request as far as get_pull_request inspects it: its head
branch name (pull.head.ref). -/
structure GHPullRequest where
  headRef : String
  deriving DecidableEq

/-- Embedding of Client.get_pull_request (kfcicli/repository.py, lines
534-558): filter the open pull requests whose head ref equals the branch
name; more than one is a RepositoryClientError, none is an explicit None,
otherwise the first (unique) match is returned. -/
def get_pull_request (open_pulls : List GHPullRequest) (branch_name : String) :
    Except PyErr (Option GHPullRequest) :=
  let open_pull := open_pulls.filter (fun p => p.headRef == branch_name)
  if 1 < open_pull.length then .error .repositoryClientError
  else
    match open_pull with
    | [] => .ok none
    | p :: _ => .ok (some p)

/-! ## Detached HEAD: Client.current_branch (repository.py, lines 284-301) -/

/-- A git tag reference: name and the commit sha it points at. -/
structure TagRef where
  name : String
  commit : String
  deriving DecidableEq

/-- The parts of the local git repository read by Client.current_branch:
the active branch (none models a detached HEAD, where GitPython's
active_branch raises TypeError), the tag list, and the HEAD commit sha. -/
structure RepoHead where
  activeBranch : Option String
  tags : List TagRef
  headCommit : String

/-- Embedding of Client.current_commit (kfcicli/repository.py, lines 298-301). -/
def current_commit (r : RepoHead) : String := r.headCommit

/-- Embedding of Client.current_branch (kfcicli/repository.py, lines 284-296):
return the active branch name; on detached HEAD (TypeError caught) return the
first tag whose commit equals the HEAD commit, and if there is none, the HEAD
commit sha.  The Python try/except makes the accessor total, which the
embedding reflects by being a total function. -/
def current_branch (r : RepoHead) : String :=
  match r.activeBranch with
  | some b => b
  | none =>
    match r.tags.find? (fun t => t.commit == r.headCommit) with
    | some t => t.name
    | none => current_commit r

/-! ## Local git state: Client.switch, Client._safe_pop_stash, Client.with_branch
(kfcicli/repository.py, lines 308-325 and 407-453) -/

/-- State of one local clone as far as switch / with_branch manipulate it.
working models the uncommitted changes of the working copy (none = clean;
the content is the documentation-directory content _safe_pop_stash targets,
standing in for the whole dirty delta).  branches is the set of checkout
targets that exist after a fetch (local plus remote-tracking).  popConflicts
is the oracle for git: whether popping the given stashed content onto the
given checked-out branch reports a CONFLICT. -/
structure GitState where
  branches : List String
  currentBranch : String
  working : Option String
  stash : List String
  indexStaged : Bool
  log : List String
  popConflicts : String → String → Bool

/-- Embedding of Client.is_dirty for the current branch (repository.py,
lines 613-626, branch_name None): the working copy has uncommitted changes. -/
def GitState.is_dirty (s : GitState) : Bool := s.working.isSome

/-- Embedding of git add "." followed by git stash (repository.py, lines
419-420): the dirty changes are staged and moved onto the stash stack,
leaving the working copy and index clean. -/
def stashPush (s : GitState) : GitState :=
  match s.working with
  | none => s
  | some c => { s with working := none, indexStaged := false, stash := c :: s.stash }

/-- Embedding of git checkout branch_name -- (repository.py, line 424, after
the fetch of line 423): succeeds and moves HEAD iff the branch exists among
the fetched checkout targets, otherwise GitCommandError. -/
def checkoutCmd (branch_name : String) (s : GitState) : Except PyErr Unit × GitState :=
  if branch_name ∈ s.branches then (.ok (), { s with currentBranch := branch_name })
  else (.error .gitCommandError, s)

/-- The warning message logged by _safe_pop_stash on a conflict
(repository.py, lines 444-448). -/
def popWarning (branch_name : String) : String :=
  "There were some conflicts when popping stashes on branch " ++ branch_name ++
    ". Using stashed version."

/-- Modelled from the spec: the attribute docs_path (the directory of the
repository where the documentation is) is declared in the Client class
docstring (repository.py, line 237) but never defined under src; the model
treats it as the existing documentation directory, so that the conflict
branch of _safe_pop_stash applies git checkout --theirs to the working
content instead of failing on the missing attribute.

Embedding of Client._safe_pop_stash (repository.py, lines 431-453): pop the
top stash entry; on a CONFLICT, log a warning and keep the stashed version
(git checkout --theirs restores the stash side of the merge; the stash entry
is not dropped because the pop failed); any other GitCommandError (such as
popping an empty stash) becomes a RepositoryClientError. -/
def safePopStash (branch_name : String) (s : GitState) : Except PyErr Unit × GitState :=
  match s.stash with
  | [] => (.error .repositoryClientError, s)
  | c :: rest =>
    if s.popConflicts c s.currentBranch then
      (.ok (), { s with log := popWarning branch_name :: s.log, working := some c })
    else
      (.ok (), { s with stash := rest, working := some c })

/-- Embedding of git reset (repository.py, line 428): a mixed reset that
unstages the index, leaving it clean. -/
def gitReset (s : GitState) : GitState := { s with indexStaged := false }

/-- Embedding of Client.switch (repository.py, lines 407-429): if the working
copy is dirty, stage everything and stash it; fetch and check out the target
branch; in the finally block, if changes were stashed, pop them back with
_safe_pop_stash and reset the index.  An exception raised in the finally
block replaces the checkout's exception, as in Python. -/
def switch (branch_name : String) (s : GitState) : Except PyErr Unit × GitState :=
  let is_dirty := s.is_dirty
  let s1 := if is_dirty then stashPush s else s
  let (r, s2) := checkoutCmd branch_name s1
  if is_dirty then
    match safePopStash branch_name s2 with
    | (.error e, s3) => (.error e, s3)
    | (.ok _, s3) => (r, gitReset s3)
  else (r, s2)

/-- Embedding of Client.with_branch (repository.py, lines 308-325), a
contextmanager: capture the current branch, switch to the requested branch
inside the try block, run the enclosed body, and in the finally block switch
back to the captured branch.  The body is explicit state passing returning
either a value or the Python exception it raised; an exception raised by the
restoring switch wins over the body's exception, as in Python. -/
def with_branch {σ : Type} (branch_name : String)
    (body : GitState → Except PyErr σ × GitState) (s : GitState) :
    Except PyErr σ × GitState :=
  let current := s.currentBranch
  match switch branch_name s with
  | (.error e, s1) =>
    (match switch current s1 with
     | (.error e2, s2) => (.error e2, s2)
     | (.ok _, s2) => (.error e, s2))
  | (.ok _, s1) =>
    let (rb, s2) := body s1
    match switch current s2 with
    | (.error e2, s3) => (.error e2, s3)
    | (.ok _, s3) => (rb, s3)

/-! ## Pull-request reconciliation: KubeflowCI.canon_run (kfcicli/main.py,
lines 222-252) -/

/-- State seen by the reconcile step of canon_run: the repository's open
pull requests and the current commit of the working branch. -/
structure PRState where
  openPRs : List GHPullRequest
  currentCommit : String
  deriving DecidableEq

/-- Embedding of the reconcile step of KubeflowCI.canon_run (kfcicli/main.py,
lines 245-252; cut_release, lines 215-220, is the same logic): when not in
dry-run, when get_pull_request finds no open pull request for the working
branch, and when the branch's current commit differs from the commit
recorded before the transaction began (hash), create a pull request whose
head is the working branch; otherwise do nothing.  Client.create_pull_request
(repository.py, lines 560-596) is modelled as adding one open pull request
with the given head branch; a RepositoryClientError from get_pull_request
propagates. -/
def canonReconcile (dry_run : Bool) (branch_name : String) (hash : String)
    (st : PRState) : Except PyErr PRState :=
  if dry_run then .ok st
  else
    match get_pull_request st.openPRs branch_name with
    | .error e => .error e
    | .ok (some _) => .ok st
    | .ok none =>
      if st.currentCommit ≠ hash then
        .ok { st with openPRs := ⟨branch_name⟩ :: st.openPRs }
      else .ok st

/-- Number of open pull requests whose head is the given branch. -/
def openCount (st : PRState) (branch_name : String) : Nat :=
  (st.openPRs.filter (fun p => p.headRef == branch_name)).length

/-! ## Batch merge: PullRequests (kfcicli/kubeflow.py, lines 31-112) -/

/-- A pull request as inspected by PullRequests.merge and _parse_row: title,
number, the mergeable flag, whether it is already merged, and the states of
its submitted reviews. -/
structure KfPullRequest where
  title : String
  number : Nat
  mergeable : Bool
  merged : Bool
  reviews : List String
  deriving DecidableEq

/-- Embedding of PullRequests._get_approved_reviews (kfcicli/kubeflow.py,
lines 84-88): the count of APPROVED review states paired with the total
count of submitted reviews. -/
def get_approved_reviews (pr : KfPullRequest) : Nat × Nat :=
  ((pr.reviews.filter (fun st => st == "APPROVED")).length, pr.reviews.length)

/-- Embedding of the approval-ratio computation of PullRequests._parse_row
(kubeflow.py, lines 47-50): approving reviews divided by total submitted
reviews, the ZeroDivisionError on zero total caught and turned into ratio 0.
Python computes in floating point, the model in exact rationals; the two
agree on whether the ratio equals 1 for any realistic review count. -/
def approval_ratio (pr : KfPullRequest) : ℚ :=
  let a := get_approved_reviews pr
  if a.2 = 0 then 0 else (a.1 : ℚ) / (a.2 : ℚ)

/-- Embedding of the can_be_merged column of PullRequests._parse_row
(kubeflow.py, line 58): the mergeable flag AND the approval ratio equals 1. -/
def can_be_merged (pr : KfPullRequest) : Bool :=
  pr.mergeable && decide (approval_ratio pr = 1)

/-- Arguments of the PyGithub PullRequest.merge call issued by
PullRequests.merge (kubeflow.py, lines 106-110). -/
structure MergeCall where
  commit_title : String
  commit_message : String
  merge_method : String
  deriving DecidableEq

/-- Embedding of the per-pull-request decision of PullRequests.merge
(kubeflow.py, lines 90-112): an already-merged pull request is always
skipped (result None); without force, a pull request whose can_be_merged
column is false is also skipped; otherwise pr.merge is called with the
squash strategy and a commit title derived from the PR title and number. -/
def merge_action (force : Bool) (pr : KfPullRequest) : Option MergeCall :=
  if pr.merged then none
  else if !force && !(can_be_merged pr) then none
  else some { commit_title := pr.title ++ " (#" ++ toString pr.number ++ ")",
              commit_message := "merged remotely by cli tool",
              merge_method := "squash" }

/-- Embedding of PullRequests.merge over the whole batch (the dict from
repository url to pull request becomes an association list): the merge
decision is taken independently for each entry, in order. -/
def PullRequests.merge (force : Bool) (prs : List (String × KfPullRequest)) :
    List (String × Option MergeCall) :=
  prs.map (fun pr => (pr.1, merge_action force pr.2))

/-! ## Unit grouping: KubeflowCI.from_tf_modules (kfcicli/main.py, lines
45-54 and 108-148) -/

/-- Embedding of CharmRepo (kfcicli/charms.py, lines 18-23): a unit with its
name, owning repository url, terraform module path and declared home branch. -/
structure CharmRepo where
  name : String
  url : String
  tf_module : String
  branch : String
  deriving DecidableEq

/-- Embedding of BLACK_LIST (kfcicli/main.py, line 21). -/
def BLACK_LIST : List String := ["https://github.com/canonical/mysql-k8s-operator"]

/-- Embedding of KubeflowCI.iter_charms (kfcicli/main.py, lines 45-54) on an
already-parsed module stream: the istio_ingressgateway unit is renamed to
istio_gateway, and charms whose repository url is blacklisted are dropped. -/
def iter_charms (charms : List CharmRepo) : List CharmRepo :=
  (charms.map (fun c =>
    if c.name == "istio_ingressgateway" then { c with name := "istio_gateway" }
    else c)).filter (fun c => !(BLACK_LIST.contains c.url))

/-- Embedding of itertools.groupby keyed on the url (kfcicli/main.py, line
113): consecutive runs of charms with equal url, in input order.  Equal urls
that are not adjacent fall into distinct groups, exactly as groupby does. -/
def groupRuns : List CharmRepo → List (String × List CharmRepo)
  | [] => []
  | c :: rest =>
    match groupRuns rest with
    | [] => [(c.url, [c])]
    | (u, g) :: gs =>
      if c.url == u then (u, c :: g) :: gs else (c.url, [c]) :: (u, g) :: gs

/-- Repository operations visible to the grouping claim: acquiring a
repository client for a url (clone or open) and switching it to a branch. -/
inductive RepoOp
  | acquire (url : String)
  | switchTo (url : String) (branch : String)
  deriving DecidableEq

/-- The Python set of home branches declared by one group
(kfcicli/main.py, line 116), as a deduplicated list. -/
def groupBranches (g : List CharmRepo) : List String :=
  (g.map (fun c => c.branch)).dedup

/-- Modelled from the spec: Client.remote_branches — the mapping from remote
to the branch names that exist on it, used to resolve whether the home
branch already exists on any remote — is referenced by
KubeflowCI.from_tf_modules (kfcicli/main.py, lines 126-129) but not defined
under src; the model takes the remote branch names of a repository as a
function of its url. -/
def remote_has_branch (remote : String → List String) (url branch : String) : Bool :=
  (remote url).contains branch

/-- Repository operations performed for one branch-consistent group by
from_tf_modules (kfcicli/main.py, lines 120-132): acquire the repository
client for the group's url, then switch it to the group's single declared
branch when that branch exists on the remote (otherwise only a warning is
logged).  The subsequent metadata parsing of the group performs no
repository operation and is omitted. -/
def processGroup (remote : String → List String) (url : String)
    (g : List CharmRepo) : List RepoOp :=
  let branch := (groupBranches g).headD ""
  .acquire url ::
    (if remote_has_branch remote url branch then [.switchTo url branch] else [])

/-- Embedding of the group loop of KubeflowCI.from_tf_modules
(kfcicli/main.py, lines 113-146): each consecutive url-group, in order, is
first checked by a bare assert that it declares exactly one home branch — a
violation raises AssertionError, aborting the run with the repository
operations of the earlier groups already performed — and is then acquired
and switched. -/
def from_tf_modules_go (remote : String → List String) :
    List (String × List CharmRepo) → Except PyErr Unit × List RepoOp
  | [] => (.ok (), [])
  | (url, g) :: gs =>
    if (groupBranches g).length ≠ 1 then (.error .assertionError, [])
    else
      match from_tf_modules_go remote gs with
      | (r, trace) => (r, processGroup remote url g ++ trace)

/-- Embedding of KubeflowCI.from_tf_modules (kfcicli/main.py, lines 108-148)
at the level the grouping claim is about: the iter_charms stream is grouped
by consecutive url and the groups are checked and processed in order; the
result is the Python outcome paired with the trace of repository operations
performed before it. -/
def from_tf_modules (remote : String → List String) (charms : List CharmRepo) :
    Except PyErr Unit × List RepoOp :=
  from_tf_modules_go remote (groupRuns (iter_charms charms))

/-! ## Batch orchestration loop: KubeflowCI.canon_run and cut_release
(kfcicli/main.py, lines 174-221 and 222-252) -/

/-- Embedding of the repository loop of KubeflowCI.canon_run
(kfcicli/main.py, lines 230-252) and cut_release (lines 183-220).  The
per-repository transaction — create_branch, the with_branch scope running
the caller-supplied transformation, and the pull-request reconciliation —
is abstracted into one fallible step on the repository identity, because
the claim is about the loop itself: its body contains no exception handler,
so the first error raised inside a transaction propagates out of the loop.
The returned list is the trace of repositories whose transaction completed. -/
def canon_run_batch (transact : String → Except PyErr Unit) :
    List String → Except PyErr Unit × List String
  | [] => (.ok (), [])
  | r :: rest =>
    match transact r with
    | .error e => (.error e, [])
    | .ok _ =>
      match canon_run_batch transact rest with
      | (res, done) => (res, r :: done)

/-! ## Credentials check: repository client constructors
(kfcicli/repository.py, lines 753-837) -/

/-- Embedding of GitCredentials (kfcicli/repository.py, lines 755-758). -/
structure GitCredentials where
  username : String
  access_token : String
  deriving DecidableEq

/-- Python truthiness of the credentials argument of the repository-client
constructors: GitCredentials is a plain dataclass with neither a bool nor a
len method, so every instance is truthy — including one whose username and
access token are empty strings; only None is falsy. -/
def credentials_truthy : Option GitCredentials → Bool
  | none => false
  | some _ => true

/-- Repository operations performed by the repository-client constructors:
opening the local clone, writing user name and password to its git config,
fetching the remote repository from the GitHub API, and cloning. -/
inductive ClientOp
  | openLocalRepo
  | configWrite
  | githubGetRepo
  | cloneRepo
  deriving DecidableEq

/-- Embedding of create_repository_client_from_path (kfcicli/repository.py,
lines 761-793): the credentials check (if not credentials) runs first and
raises InputError; otherwise the local repository is opened, the
credentials are written to its git config, and the remote repository is
fetched from the GitHub API, in that order. -/
def create_repository_client_from_path (credentials : Option GitCredentials) :
    Except PyErr Unit × List ClientOp :=
  if !(credentials_truthy credentials) then (.error .inputError, [])
  else (.ok (), [.openLocalRepo, .configWrite, .githubGetRepo])

/-- Embedding of create_repository_client_from_url (kfcicli/repository.py,
lines 795-837): the credentials check runs first and raises InputError;
otherwise the remote repository is fetched from the GitHub API, the local
clone is opened when the target path already exists and cloned otherwise,
and the credentials are written to the git config.  The url-mismatch
InputError of the path-exists branch is orthogonal to the claim and
omitted. -/
def create_repository_client_from_url (credentials : Option GitCredentials)
    (path_exists : Bool) : Except PyErr Unit × List ClientOp :=
  if !(credentials_truthy credentials) then (.error .inputError, [])
  else
    (.ok (), .githubGetRepo ::
      (if path_exists then [.openLocalRepo] else [.cloneRepo]) ++ [.configWrite])

/-- Helper: no step of switch changes the set of checkout targets. -/
theorem switch_branches_eq (branch_name : String) (s : GitState) :
    (switch branch_name s).2.branches = s.branches := by
  rcases hw : s.working with _ | c
  · by_cases hmem : branch_name ∈ s.branches <;>
      simp [switch, GitState.is_dirty, hw, stashPush, checkoutCmd, hmem, safePopStash, gitReset]
  · by_cases hmem : branch_name ∈ s.branches
    · by_cases hc : s.popConflicts c branch_name <;>
        simp [switch, GitState.is_dirty, hw, stashPush, checkoutCmd, hmem,
          safePopStash, gitReset, hc]
    · by_cases hc : s.popConflicts c s.currentBranch <;>
        simp [switch, GitState.is_dirty, hw, stashPush, checkoutCmd, hmem,
          safePopStash, gitReset, hc]

/-- Helper: when the target branch exists, switch checks it out (HEAD moves
before the finally block runs, so a conflicting pop does not undo it) and
reports success. -/
theorem switch_currentBranch_of_mem (branch_name : String) (s : GitState)
    (h : branch_name ∈ s.branches) :
    (switch branch_name s).1 = .ok () ∧
    (switch branch_name s).2.currentBranch = branch_name := by
  rcases hw : s.working with _ | c
  · simp [switch, GitState.is_dirty, hw, stashPush, checkoutCmd, h, safePopStash, gitReset]
  · by_cases hc : s.popConflicts c branch_name <;>
      simp [switch, GitState.is_dirty, hw, stashPush, checkoutCmd, h,
        safePopStash, gitReset, hc]

/-- Claim C1: entering the scoped branch context with_branch captures the
checked-out branch on entry and, on every exit path of the scope (normal
completion of the body or an exception raised by it, and even when the
initial switch itself fails), switches the repository back to that captured
branch, so the checked-out branch after the scope equals the checked-out
branch before it.  Hypotheses: the captured branch is a real checkout target
initially and still exists after the body ran (the body may fail, but must
not have deleted the original branch). -/
theorem with_branch_restores_original_branch {σ : Type} (branch_name : String)
    (body : GitState → Except PyErr σ × GitState) (s : GitState)
    (h1 : s.currentBranch ∈ s.branches)
    (h2 : s.currentBranch ∈ (body (switch branch_name s).2).2.branches) :
    (with_branch branch_name body s).2.currentBranch = s.currentBranch := by
  unfold with_branch
  rcases hsw : switch branch_name s with ⟨r1, s1⟩
  have hbr : s1.branches = s.branches := by
    have := switch_branches_eq branch_name s
    rw [hsw] at this
    exact this
  rcases r1 with e | u
  · have hmem : s.currentBranch ∈ s1.branches := by rw [hbr]; exact h1
    rcases hsw2 : switch s.currentBranch s1 with ⟨r2, s2⟩
    have hcb := (switch_currentBranch_of_mem s.currentBranch s1 hmem).2
    have hok := (switch_currentBranch_of_mem s.currentBranch s1 hmem).1
    rw [hsw2] at hcb hok
    simp only at hok hcb
    dsimp only
    rw [hsw2]
    subst hok
    simpa using hcb
  · rcases hb : body s1 with ⟨rb, s2⟩
    have hmem : s.currentBranch ∈ s2.branches := by
      rw [hsw] at h2
      rw [hb] at h2
      exact h2
    rcases hsw2 : switch s.currentBranch s2 with ⟨r2, s3⟩
    have hcb := (switch_currentBranch_of_mem s.currentBranch s2 hmem).2
    have hok := (switch_currentBranch_of_mem s.currentBranch s2 hmem).1
    rw [hsw2] at hcb hok
    simp only at hok hcb
    dsimp only
    rw [hb]
    dsimp only
    rw [hsw2]
    subst hok
    simpa using hcb

/-- Concrete run of with_branch_restores_original_branch: a body that raises
an exception inside the scope, on a clean two-branch repository; the
checked-out branch is restored to main. -/
theorem with_branch_restores_original_branch_witness :
    (with_branch "feat"
      (fun s => ((Except.error PyErr.githubException : Except PyErr Unit), s))
      { branches := ["main", "feat"], currentBranch := "main", working := none,
        stash := [], indexStaged := false, log := [],
        popConflicts := fun _ _ => false }).2.currentBranch = "main" :=
  @with_branch_restores_original_branch Unit "feat"
    (fun s => ((Except.error PyErr.githubException : Except PyErr Unit), s))
    { branches := ["main", "feat"], currentBranch := "main", working := none,
      stash := [], indexStaged := false, log := [],
      popConflicts := fun _ _ => false }
    (by decide) (by decide)

/-- Claim C8, counterexample to the claim as stated: on a dirty working copy
whose stashed changes conflict with the target branch, the stashed local
changes are NOT discarded — after the switch the working copy still carries
the local edit (git checkout --theirs re-applies the stash side of the
merge, as the logged message Using stashed version says), and the stash
entry is retained because the pop failed. -/
theorem switch_conflict_counterexample :
    (switch "feat"
      { branches := ["main", "feat"], currentBranch := "main",
        working := some "local-edit", stash := [], indexStaged := false,
        log := [], popConflicts := fun _ _ => true }).2.working = some "local-edit" ∧
    ¬ (switch "feat"
      { branches := ["main", "feat"], currentBranch := "main",
        working := some "local-edit", stash := [], indexStaged := false,
        log := [], popConflicts := fun _ _ => true }).2.working = none ∧
    (switch "feat"
      { branches := ["main", "feat"], currentBranch := "main",
        working := some "local-edit", stash := [], indexStaged := false,
        log := [], popConflicts := fun _ _ => true }).2.stash = ["local-edit"] := by
  refine ⟨rfl, ?_, rfl⟩
  simp [switch, GitState.is_dirty, stashPush, checkoutCmd, safePopStash, gitReset]

/-- Claim C8 as amended: for every switch call on a dirty working copy whose
target branch exists, the dirty changes are staged and stashed before the
checkout and restored afterwards; if restoring the stashed changes conflicts
with the new branch's content, the stashed version wins (checkout --theirs
re-applies the stashed content for the documentation directory instead of
discarding it, and the stash entry is retained), the outcome is logged, and
after the restore the repository index is reset to a clean state. -/
theorem switch_dirty_stash_amended (branch_name : String) (s : GitState) (c : String)
    (hd : s.working = some c) (hmem : branch_name ∈ s.branches) :
    (switch branch_name s).1 = .ok () ∧
    (switch branch_name s).2.currentBranch = branch_name ∧
    (switch branch_name s).2.indexStaged = false ∧
    (switch branch_name s).2.working = some c ∧
    (s.popConflicts c branch_name = true →
      popWarning branch_name ∈ (switch branch_name s).2.log ∧
      (switch branch_name s).2.stash = c :: s.stash) ∧
    (s.popConflicts c branch_name = false →
      (switch branch_name s).2.stash = s.stash ∧
      (switch branch_name s).2.log = s.log) := by
  by_cases hc : s.popConflicts c branch_name <;>
    simp [switch, GitState.is_dirty, hd, stashPush, checkoutCmd, hmem,
      safePopStash, gitReset, hc]

/-- Concrete run of switch_dirty_stash_amended on a conflicting dirty state:
the switch succeeds, the stashed edit survives, the conflict is logged and
the stash entry is kept. -/
theorem switch_dirty_stash_amended_witness :
    (switch "feat"
      { branches := ["main", "feat"], currentBranch := "main",
        working := some "local", stash := [], indexStaged := true,
        log := [], popConflicts := fun _ _ => true }).1 = .ok () ∧
    (switch "feat"
      { branches := ["main", "feat"], currentBranch := "main",
        working := some "local", stash := [], indexStaged := true,
        log := [], popConflicts := fun _ _ => true }).2.working = some "local" ∧
    popWarning "feat" ∈ (switch "feat"
      { branches := ["main", "feat"], currentBranch := "main",
        working := some "local", stash := [], indexStaged := true,
        log := [], popConflicts := fun _ _ => true }).2.log ∧
    (switch "feat"
      { branches := ["main", "feat"], currentBranch := "main",
        working := some "local", stash := [], indexStaged := true,
        log := [], popConflicts := fun _ _ => true }).2.stash = ["local"] :=
  let thm := switch_dirty_stash_amended "feat"
    { branches := ["main", "feat"], currentBranch := "main",
      working := some "local", stash := [], indexStaged := true,
      log := [], popConflicts := fun _ _ => true } "local" rfl (by decide)
  ⟨thm.1, thm.2.2.2.1, (thm.2.2.2.2.1 rfl).1, (thm.2.2.2.2.1 rfl).2⟩

/-- Claim C2: the DiffSummary merge operator is associative and commutative,
the all-empty not-dirty summary is a two-sided identity, the merged dirty
flag is the logical OR of the two dirty flags (true iff at least one
constituent is dirty), and each path set of the result is the union of the
corresponding operand sets. -/
theorem diff_summary_merge_algebra (a b c : DiffSummary) :
    (a.add b).add c = a.add (b.add c) ∧
    a.add b = b.add a ∧
    a.add DiffSummary.empty = a ∧
    DiffSummary.empty.add a = a ∧
    (a.add b).is_dirty = (a.is_dirty || b.is_dirty) ∧
    ((a.add b).is_dirty = true ↔ a.is_dirty = true ∨ b.is_dirty = true) ∧
    (a.add b).new = a.new ∪ b.new ∧
    (a.add b).removed = a.removed ∪ b.removed ∧
    (a.add b).modified = a.modified ∪ b.modified := by
  obtain ⟨da, na, ra, ma⟩ := a
  obtain ⟨db, nb, rb, mb⟩ := b
  obtain ⟨dc, nc, rc, mc⟩ := c
  refine ⟨?_, ?_, ?_, ?_, rfl, ?_, rfl, rfl, rfl⟩
  · simp [DiffSummary.add, Bool.or_assoc, Finset.union_assoc]
  · simp [DiffSummary.add, Bool.or_comm, Finset.union_comm]
  · simp [DiffSummary.add, DiffSummary.empty]
  · simp [DiffSummary.add, DiffSummary.empty]
  · simp [DiffSummary.add, Bool.or_eq_true]

/-- Claim C4: get_pull_request returns an explicit None when no open pull
request has the given head branch, returns the unique pull request when
exactly one exists, and raises RepositoryClientError (never returning an
arbitrary one) when more than one open pull request has that head branch. -/
theorem get_pull_request_trichotomy (open_pulls : List GHPullRequest) (branch_name : String) :
    ((open_pulls.filter (fun p => p.headRef == branch_name)) = [] →
      get_pull_request open_pulls branch_name = .ok none) ∧
    (∀ p, (open_pulls.filter (fun q => q.headRef == branch_name)) = [p] →
      get_pull_request open_pulls branch_name = .ok (some p)) ∧
    (1 < (open_pulls.filter (fun p => p.headRef == branch_name)).length →
      get_pull_request open_pulls branch_name = .error .repositoryClientError) := by
  refine ⟨fun h => ?_, fun p h => ?_, fun h => ?_⟩ <;>
    simp [get_pull_request, h]

/-- Concrete run of get_pull_request_trichotomy: all three branches of the
lookup evaluated on explicit pull-request lists. -/
theorem get_pull_request_trichotomy_witness :
    get_pull_request [⟨"other"⟩] "feat" = .ok none ∧
    get_pull_request [⟨"other"⟩, ⟨"feat"⟩] "feat" = .ok (some ⟨"feat"⟩) ∧
    get_pull_request [⟨"feat"⟩, ⟨"feat"⟩] "feat" = .error .repositoryClientError :=
  ⟨(get_pull_request_trichotomy [⟨"other"⟩] "feat").1 (by decide),
   (get_pull_request_trichotomy [⟨"other"⟩, ⟨"feat"⟩] "feat").2.1 ⟨"feat"⟩ (by decide),
   (get_pull_request_trichotomy [⟨"feat"⟩, ⟨"feat"⟩] "feat").2.2 (by decide)⟩

/-- Claim C10: on a detached HEAD (no active branch) current_branch does not
raise: being a total function of the embedding (the TypeError is caught in
the source), it returns the name of a tag whose commit equals the HEAD
commit when such a tag exists, and the HEAD commit sha (the value of
current_commit) otherwise. -/
theorem current_branch_detached_head (r : RepoHead) (h : r.activeBranch = none) :
    (∃ t, t ∈ r.tags ∧ t.commit = r.headCommit ∧ current_branch r = t.name) ∨
    ((∀ t ∈ r.tags, t.commit ≠ r.headCommit) ∧ current_branch r = current_commit r) := by
  obtain ⟨ab, tags, head⟩ := r
  dsimp only at h ⊢
  subst h
  rcases hf : tags.find? (fun t => t.commit == head) with _ | t
  · refine Or.inr ⟨fun t ht => ?_, ?_⟩
    · simpa using List.find?_eq_none.mp hf t ht
    · simp [current_branch, hf]
  · refine Or.inl ⟨t, List.mem_of_find?_eq_some hf, ?_, ?_⟩
    · simpa using List.find?_some hf
    · simp [current_branch, hf]

/-- Concrete run of current_branch_detached_head: a detached HEAD pointing at
a tagged commit and one pointing at an untagged commit. -/
theorem current_branch_detached_head_witness :
    ((∃ t, t ∈ [TagRef.mk "v1.0" "sha1"] ∧ t.commit = "sha1" ∧
        current_branch ⟨none, [⟨"v1.0", "sha1"⟩], "sha1"⟩ = t.name) ∨
      ((∀ t ∈ [TagRef.mk "v1.0" "sha1"], t.commit ≠ "sha1") ∧
        current_branch ⟨none, [⟨"v1.0", "sha1"⟩], "sha1"⟩ =
          current_commit ⟨none, [⟨"v1.0", "sha1"⟩], "sha1"⟩)) ∧
    ((∃ t, t ∈ [TagRef.mk "v1.0" "other"] ∧ t.commit = "sha2" ∧
        current_branch ⟨none, [⟨"v1.0", "other"⟩], "sha2"⟩ = t.name) ∨
      ((∀ t ∈ [TagRef.mk "v1.0" "other"], t.commit ≠ "sha2") ∧
        current_branch ⟨none, [⟨"v1.0", "other"⟩], "sha2"⟩ =
          current_commit ⟨none, [⟨"v1.0", "other"⟩], "sha2"⟩)) :=
  ⟨current_branch_detached_head ⟨none, [⟨"v1.0", "sha1"⟩], "sha1"⟩ rfl,
   current_branch_detached_head ⟨none, [⟨"v1.0", "other"⟩], "sha2"⟩ rfl⟩

/-- Claim C3: pull-request reconciliation is idempotent.  Starting from no
open pull request for the working branch: when the branch's commit differs
from the commit recorded before the transaction, the first run creates the
single pull request and the second run finds it and changes nothing (no
second pull request, commit untouched), leaving exactly one open pull
request; when the commit equals the recorded one, no pull request is
created at all. -/
theorem canon_reconcile_idempotent (st : PRState) (branch_name hash : String)
    (h0 : openCount st branch_name = 0) :
    (st.currentCommit ≠ hash →
      canonReconcile false branch_name hash st =
        .ok { st with openPRs := ⟨branch_name⟩ :: st.openPRs } ∧
      openCount { st with openPRs := ⟨branch_name⟩ :: st.openPRs } branch_name = 1 ∧
      canonReconcile false branch_name hash
          { st with openPRs := ⟨branch_name⟩ :: st.openPRs } =
        .ok { st with openPRs := ⟨branch_name⟩ :: st.openPRs }) ∧
    (st.currentCommit = hash →
      canonReconcile false branch_name hash st = .ok st ∧
      openCount st branch_name = 0) := by
  have hfil : st.openPRs.filter (fun p => p.headRef == branch_name) = [] :=
    List.length_eq_zero.mp h0
  constructor
  · intro hne
    refine ⟨?_, ?_, ?_⟩
    · simp [canonReconcile, get_pull_request, hfil, hne]
    · simp [openCount, hfil]
    · simp [canonReconcile, get_pull_request, hfil]
  · intro heq
    exact ⟨by simp [canonReconcile, get_pull_request, hfil, heq], h0⟩

/-- Concrete run of canon_reconcile_idempotent: with no open pull request, a
changed commit yields exactly one pull request across two runs, the second
run a no-op; an unchanged commit yields none. -/
theorem canon_reconcile_idempotent_witness :
    (canonReconcile false "feat" "c1" ⟨[], "c2"⟩ = .ok ⟨[⟨"feat"⟩], "c2"⟩ ∧
      openCount ⟨[⟨"feat"⟩], "c2"⟩ "feat" = 1 ∧
      canonReconcile false "feat" "c1" ⟨[⟨"feat"⟩], "c2"⟩ = .ok ⟨[⟨"feat"⟩], "c2"⟩) ∧
    (canonReconcile false "feat" "c2" ⟨[], "c2"⟩ = .ok ⟨[], "c2"⟩ ∧
      openCount ⟨[], "c2"⟩ "feat" = 0) :=
  ⟨(canon_reconcile_idempotent ⟨[], "c2"⟩ "feat" "c1" (by decide)).1 (by decide),
   (canon_reconcile_idempotent ⟨[], "c2"⟩ "feat" "c2" (by decide)).2 rfl⟩

/-- Claim C5: for every batch, merge always skips already-merged pull
requests; with force=false it merges a pull request exactly when it is not
already merged, its mergeable flag is true, and the approval ratio equals 1
(zero submitted reviews giving ratio 0, hence not mergeable); with
force=true it attempts every not-already-merged pull request, using the
squash strategy with a commit title derived deterministically from the PR
title and number. -/
theorem pull_requests_merge_policy (force : Bool) (prs : List (String × KfPullRequest)) :
    (∀ p ∈ prs, (p.1, merge_action force p.2) ∈ PullRequests.merge force prs) ∧
    (∀ pr : KfPullRequest,
      (pr.merged = true → merge_action force pr = none) ∧
      (pr.reviews = [] → approval_ratio pr = 0) ∧
      (force = false →
        ((merge_action false pr).isSome = true ↔
          pr.merged = false ∧ pr.mergeable = true ∧ approval_ratio pr = 1)) ∧
      (force = true → pr.merged = false →
        merge_action true pr =
          some ⟨pr.title ++ " (#" ++ toString pr.number ++ ")",
                "merged remotely by cli tool", "squash"⟩)) := by
  refine ⟨fun p hp => List.mem_map_of_mem _ hp, fun pr => ⟨?_, ?_, ?_, ?_⟩⟩
  · intro h
    simp [merge_action, h]
  · intro h
    simp [approval_ratio, get_approved_reviews, h]
  · intro hf
    cases hm : pr.merged
    · by_cases hcb : can_be_merged pr
      · simp only [can_be_merged, Bool.and_eq_true, decide_eq_true_eq] at hcb
        simp [merge_action, hm, can_be_merged, hcb]
      · simp only [can_be_merged, Bool.and_eq_true, decide_eq_true_eq, not_and] at hcb
        rcases hmg : pr.mergeable
        · simp [merge_action, hm, can_be_merged, hmg]
        · simp [merge_action, hm, can_be_merged, hmg, hcb hmg]
    · simp [merge_action, hm]
  · intro hf hm
    simp [merge_action, hm, hf]

/-- Concrete runs of pull_requests_merge_policy: batch membership; an
already-merged PR skipped; zero reviews giving ratio 0; a conflict-free
fully-approved PR merged without force; force merging an unapproved PR with
the squash call and derived title. -/
theorem pull_requests_merge_policy_witness :
    ("u", merge_action false ⟨"t", 3, true, false, ["APPROVED"]⟩) ∈
      PullRequests.merge false [("u", ⟨"t", 3, true, false, ["APPROVED"]⟩)] ∧
    merge_action false ⟨"t", 3, true, true, ["APPROVED"]⟩ = none ∧
    approval_ratio ⟨"t", 3, true, false, []⟩ = 0 ∧
    (merge_action false ⟨"t", 3, true, false, ["APPROVED"]⟩).isSome = true ∧
    merge_action true ⟨"t", 3, false, false, ["CHANGES_REQUESTED"]⟩ =
      some ⟨"t" ++ " (#" ++ toString (3 : Nat) ++ ")",
            "merged remotely by cli tool", "squash"⟩ := by
  refine ⟨?_, ?_, ?_, ?_, ?_⟩
  · exact (pull_requests_merge_policy false
      [("u", ⟨"t", 3, true, false, ["APPROVED"]⟩)]).1
      ("u", ⟨"t", 3, true, false, ["APPROVED"]⟩) (by simp)
  · exact ((pull_requests_merge_policy false []).2
      ⟨"t", 3, true, true, ["APPROVED"]⟩).1 rfl
  · exact ((pull_requests_merge_policy false []).2 ⟨"t", 3, true, false, []⟩).2.1 rfl
  · exact (((pull_requests_merge_policy false []).2
      ⟨"t", 3, true, false, ["APPROVED"]⟩).2.2.1 rfl).mpr ⟨rfl, rfl, by
        norm_num [approval_ratio, get_approved_reviews]⟩
  · exact ((pull_requests_merge_policy true []).2
      ⟨"t", 3, false, false, ["CHANGES_REQUESTED"]⟩).2.2.2 rfl rfl

/-- Helper: when the group loop of from_tf_modules succeeds, every group it
processed declared exactly one home branch (the assert passed for each). -/
theorem from_tf_modules_go_ok (remote : String → List String)
    (gs : List (String × List CharmRepo))
    (h : (from_tf_modules_go remote gs).1 = .ok ()) :
    ∀ g ∈ gs, (groupBranches g.2).length = 1 := by
  induction gs with
  | nil => simp
  | cons hd tl ih =>
    rcases hd with ⟨url, g⟩
    by_cases hlen : (groupBranches g).length = 1
    · rcases hgo : from_tf_modules_go remote tl with ⟨r, trace⟩
      simp only [from_tf_modules_go, hlen, ne_eq, not_true_eq_false, if_false, hgo] at h
      intro p hp
      rcases List.mem_cons.mp hp with rfl | hp2
      · exact hlen
      · refine ih ?_ p hp2
        rw [hgo]
        simpa using h
    · simp [from_tf_modules_go, hlen] at h
  
/-- Helper: the group loop of from_tf_modules stops with AssertionError at
the first group that declares more than one home branch, with exactly the
repository operations of the earlier, consistent groups performed. -/
theorem from_tf_modules_go_abort (remote : String → List String)
    (pre : List (String × List CharmRepo)) (url : String) (g : List CharmRepo)
    (post : List (String × List CharmRepo))
    (hpre : ∀ p ∈ pre, (groupBranches p.2).length = 1)
    (hbad : (groupBranches g).length ≠ 1) :
    from_tf_modules_go remote (pre ++ (url, g) :: post) =
      (.error .assertionError,
        (pre.map (fun p => processGroup remote p.1 p.2)).flatten) := by
  induction pre with
  | nil => simp [from_tf_modules_go, hbad]
  | cons p ps ih =>
    rcases p with ⟨u2, g2⟩
    have h1 : (groupBranches g2).length = 1 := hpre (u2, g2) (by simp)
    have h2 : ∀ q ∈ ps, (groupBranches q.2).length = 1 :=
      fun q hq => hpre q (by simp [hq])
    simp [from_tf_modules_go, h1, ih h2]

/-- Claim C6, counterexample to the claim as stated: two units of one
repository with differing home branches make from_tf_modules raise
AssertionError (from the bare assert), not InputError; when the violating
group is not the first, repository operations (acquire and switch of the
first group's repository) have already been performed before the error; and
grouping is by consecutive runs of equal url, not a partition — the same
repository url can occur in several groups. -/
theorem from_tf_modules_claim_counterexample :
    (from_tf_modules (fun _ => ["main"])
      [⟨"a", "urlA", "m", "b1"⟩, ⟨"b", "urlA", "m", "b2"⟩]).1 =
      .error .assertionError ∧
    (from_tf_modules (fun _ => ["main"])
      [⟨"a", "urlA", "m", "b1"⟩, ⟨"b", "urlA", "m", "b2"⟩]).1 ≠
      .error .inputError ∧
    from_tf_modules (fun _ => ["main"])
      [⟨"c", "urlA", "m", "main"⟩, ⟨"d", "urlB", "m", "b1"⟩,
       ⟨"e", "urlB", "m", "b2"⟩] =
      (.error .assertionError, [.acquire "urlA", .switchTo "urlA" "main"]) ∧
    (groupRuns (iter_charms
      [⟨"f", "urlA", "m", "main"⟩, ⟨"g", "urlB", "m", "main"⟩,
       ⟨"h", "urlA", "m", "main"⟩])).map Prod.fst = ["urlA", "urlB", "urlA"] := by
  refine ⟨rfl, ?_, rfl, rfl⟩
  intro h
  have h2 : Except.error (α := Unit) PyErr.assertionError =
      Except.error PyErr.inputError := h
  injection h2 with h3
  exact PyErr.noConfusion h3

/-- Claim C6 as amended: grouping collects consecutive units with equal
repository url (not a partition of the whole batch by url); on a successful
run every group declares exactly one home branch; an input whose units in
one consecutive url-group declare differing home branches deterministically
raises AssertionError (via the bare assert, not InputError), before any
repository operation is performed for that group — though the repositories
of the groups processed earlier have already been acquired and switched. -/
theorem from_tf_modules_branch_consistency_amended
    (remote : String → List String) (charms : List CharmRepo) :
    ((from_tf_modules remote charms).1 = .ok () →
      ∀ g ∈ groupRuns (iter_charms charms), (groupBranches g.2).length = 1) ∧
    (∀ pre url g post,
      groupRuns (iter_charms charms) = pre ++ (url, g) :: post →
      (∀ p ∈ pre, (groupBranches p.2).length = 1) →
      (groupBranches g).length ≠ 1 →
      from_tf_modules remote charms =
        (.error .assertionError,
          (pre.map (fun p => processGroup remote p.1 p.2)).flatten)) := by
  constructor
  · intro h
    exact from_tf_modules_go_ok remote _ h
  · intro pre url g post hsplit hpre hbad
    unfold from_tf_modules
    rw [hsplit]
    exact from_tf_modules_go_abort remote pre url g post hpre hbad

/-- Concrete run of from_tf_modules_branch_consistency_amended: a
branch-consistent batch passes the group check, and a batch whose second
group mixes two home branches aborts with AssertionError right after the
first group's repository operations. -/
theorem from_tf_modules_branch_consistency_amended_witness :
    (groupBranches [CharmRepo.mk "a" "urlC" "m" "main"]).length = 1 ∧
    from_tf_modules (fun _ => ["main"])
      [⟨"a", "urlC", "m", "main"⟩, ⟨"d", "urlD", "m", "b1"⟩,
       ⟨"e", "urlD", "m", "b2"⟩] =
      (.error .assertionError,
        ([(("urlC" : String), [CharmRepo.mk "a" "urlC" "m" "main"])].map
          (fun p => processGroup (fun _ => ["main"]) p.1 p.2)).flatten) :=
  ⟨(from_tf_modules_branch_consistency_amended (fun _ => ["main"])
      [⟨"a", "urlC", "m", "main"⟩, ⟨"b", "urlD", "m", "track/1.10"⟩]).1 rfl
      ("urlC", [⟨"a", "urlC", "m", "main"⟩]) (by decide),
   (from_tf_modules_branch_consistency_amended (fun _ => ["main"])
      [⟨"a", "urlC", "m", "main"⟩, ⟨"d", "urlD", "m", "b1"⟩,
       ⟨"e", "urlD", "m", "b2"⟩]).2
      [("urlC", [⟨"a", "urlC", "m", "main"⟩])] "urlD"
      [⟨"d", "urlD", "m", "b1"⟩, ⟨"e", "urlD", "m", "b2"⟩] [] rfl
      (by decide) (by decide)⟩

/-- Claim C7, counterexample to the claim as stated: in a batch of two
repositories where the first repository's transaction raises, the error
propagates out of the loop and the second repository is never processed —
the failure aborts the batch instead of being skipped. -/
theorem canon_run_claim_counterexample :
    canon_run_batch
      (fun r => if r == "repo1" then .error .repositoryClientError else .ok ())
      ["repo1", "repo2"] = (.error .repositoryClientError, []) ∧
    "repo2" ∉ (canon_run_batch
      (fun r => if r == "repo1" then .error .repositoryClientError else .ok ())
      ["repo1", "repo2"]).2 := by
  exact ⟨rfl, by simp [canon_run_batch]⟩

/-- Claim C7 as amended: a failure raised inside one repository's
transaction propagates out of the orchestration loop uncaught and aborts
the batch — the repositories before the failing one complete, the failing
repository's error becomes the loop's result, and the remaining repository
groups are not processed. -/
theorem canon_run_abort_amended (transact : String → Except PyErr Unit)
    (pre : List String) (r : String) (rest : List String) (e : PyErr)
    (hok : ∀ p ∈ pre, transact p = .ok ())
    (hfail : transact r = .error e) :
    canon_run_batch transact (pre ++ r :: rest) = (.error e, pre) := by
  induction pre with
  | nil => simp [canon_run_batch, hfail]
  | cons p ps ih =>
    have hp : transact p = .ok () := hok p (by simp)
    have hps : ∀ q ∈ ps, transact q = .ok () := fun q hq => hok q (by simp [hq])
    simp [canon_run_batch, hp, ih hps]

/-- Concrete run of canon_run_abort_amended: two healthy repositories, then
a failing one, then one more — the loop returns the failure with only the
first two processed. -/
theorem canon_run_abort_amended_witness :
    canon_run_batch
      (fun r => if r == "bad" then .error .githubException else .ok ())
      ["r1", "r2", "bad", "r3"] = (.error .githubException, ["r1", "r2"]) :=
  canon_run_abort_amended
    (fun r => if r == "bad" then .error .githubException else .ok ())
    ["r1", "r2"] "bad" ["r3"] .githubException
    (by
      intro p hp
      rcases List.mem_cons.mp hp with rfl | hp2
      · rfl
      · rcases List.mem_cons.mp hp2 with rfl | h3
        · rfl
        · exact absurd h3 (by simp))
    rfl

/-- Claim C9, counterexample to the claim as stated: a credentials object
with empty identity and secret is truthy in Python, so both repository
client constructors accept it — no InputError is raised and repository
operations are performed with the empty credentials. -/
theorem credentials_claim_counterexample :
    (create_repository_client_from_path (some ⟨"", ""⟩)).1 ≠ .error .inputError ∧
    (create_repository_client_from_path (some ⟨"", ""⟩)).2 ≠ [] ∧
    (create_repository_client_from_url (some ⟨"", ""⟩) false).1 ≠ .error .inputError ∧
    (create_repository_client_from_url (some ⟨"", ""⟩) false).2 ≠ [] := by
  refine ⟨?_, ?_, ?_, ?_⟩ <;>
    simp [create_repository_client_from_path, create_repository_client_from_url,
      credentials_truthy]

/-- Claim C9 as amended: only an absent (None, hence falsy) credentials
value makes the repository-client constructors raise InputError, and that
happens before any repository operation begins; a credentials object with
empty identity or secret passes the truthiness check and the constructors
proceed to repository operations. -/
theorem credentials_check_amended (credentials : Option GitCredentials)
    (path_exists : Bool) :
    (credentials = none →
      create_repository_client_from_path credentials = (.error .inputError, []) ∧
      create_repository_client_from_url credentials path_exists =
        (.error .inputError, [])) ∧
    (∀ c, credentials = some c →
      (create_repository_client_from_path credentials).1 = .ok () ∧
      (create_repository_client_from_path credentials).2 ≠ [] ∧
      (create_repository_client_from_url credentials path_exists).1 = .ok () ∧
      (create_repository_client_from_url credentials path_exists).2 ≠ []) := by
  constructor
  · rintro rfl
    exact ⟨rfl, rfl⟩
  · rintro c rfl
    refine ⟨rfl, by simp [create_repository_client_from_path, credentials_truthy], ?_, ?_⟩
    · rfl
    · cases path_exists <;>
        simp [create_repository_client_from_url, credentials_truthy]

/-- Concrete run of credentials_check_amended: None credentials fail fast
with InputError; a credentials object carrying empty strings is accepted by
both constructors. -/
theorem credentials_check_amended_witness :
    create_repository_client_from_path none = (.error .inputError, []) ∧
    create_repository_client_from_url none true = (.error .inputError, []) ∧
    (create_repository_client_from_path (some ⟨"user", ""⟩)).1 = .ok () ∧
    (create_repository_client_from_url (some ⟨"user", ""⟩) true).1 = .ok () :=
  ⟨((credentials_check_amended none true).1 rfl).1,
   ((credentials_check_amended none true).1 rfl).2,
   ((credentials_check_amended (some ⟨"user", ""⟩) true).2 ⟨"user", ""⟩ rfl).1,
   ((credentials_check_amended (some ⟨"user", ""⟩) true).2 ⟨"user", ""⟩ rfl).2.2.1⟩
